import Mathlib

/-!
Verification of the skill-evaluation harness (evals/skill_eval) against its
specification.  The Python sources are shallowly embedded: each assessment
method of WorkspaceAssessor, the assertion engine, the workspace diff, the
runner aggregation and the tracker trend summary become executable Lean
functions over explicit state (parsed YAML documents, a functional file
system, outcome oracles for external subprocesses).  Theorems at the end of
the file settle the specification claims against these embeddings.
-/

namespace SkillEval

/-- One check record, as produced by AssessmentResult.add_check in
evals/skill_eval/assessor.py: a dict with name, passed and details fields. -/
structure Check where
  name : String
  passed : Bool
  details : String
deriving DecidableEq, Repr

/-- AssessmentResult from assessor.py: overall passed flag, ordered check
list and a summary string (dataclass defaults: checks = [], summary = ""). -/
structure AssessmentResult where
  passed : Bool
  checks : List Check := []
  summary : String := ""
deriving DecidableEq, Repr

/-- AssessmentResult.add_check: appends a record to the checks list. -/
def AssessmentResult.addCheck (r : AssessmentResult) (name : String) (passed : Bool)
    (details : String) : AssessmentResult :=
  { r with checks := r.checks ++ [⟨name, passed, details⟩] }

/-- AssessmentResult.passed_count: number of checks with passed = true. -/
def AssessmentResult.passedCount (r : AssessmentResult) : Nat :=
  (r.checks.filter (fun c => c.passed)).length

/-- AssessmentResult.failed_count: number of checks with passed = false. -/
def AssessmentResult.failedCount (r : AssessmentResult) : Nat :=
  (r.checks.filter (fun c => !c.passed)).length

/-- Lookup of a check by its name inside a result (the name is unique within
one result, per the data model). -/
def AssessmentResult.findCheck (r : AssessmentResult) (n : String) : Option Check :=
  r.checks.find? (fun c => c.name == n)

/-- Value produced by yaml.safe_load: null, booleans, numbers (modelled as
rationals), strings, sequences and mappings (association lists preserving
document order, as Python dicts do). -/
inductive Yaml where
  | null
  | bool (b : Bool)
  | num (q : Rat)
  | str (s : String)
  | arr (items : List Yaml)
  | obj (entries : List (String × Yaml))

/-- Boolean substring test on strings (Python in-operator on str). -/
def substrB (needle hay : String) : Bool :=
  decide (List.IsInfix needle.toList hay.toList)

/-- Split of a character list at a separator character (Python str.split
with a one-character separator; empty pieces preserved). -/
def splitOnChar (sep : Char) : List Char → List (List Char) :=
  List.foldr
    (fun c acc =>
      match acc with
      | [] => [[c]]
      | cur :: rest => if c == sep then [] :: cur :: rest else (c :: cur) :: rest)
    [[]]

/-- Slash-separated path segments of a relative path string. -/
def splitPath (s : String) : List String :=
  (splitOnChar '/' s.toList).map String.mk

/-- Python str.strip: drop leading and trailing whitespace. -/
def pyStrip (s : String) : String :=
  String.mk (((s.toList.dropWhile Char.isWhitespace).reverse.dropWhile Char.isWhitespace).reverse)

/-- Python str.lower (ASCII). -/
def pyLower (s : String) : String :=
  String.mk (s.toList.map Char.toLower)

/-- Python in-operator on a parsed document: key membership for mappings,
substring for strings, element equality for sequences (the container shapes
yaml.safe_load can produce that these assessments encounter). -/
def Yaml.hasKey (y : Yaml) (k : String) : Bool :=
  match y with
  | .obj es => es.any (fun e => e.1 == k)
  | .str s => substrB k s
  | .arr items => items.any (fun e => match e with | .str s => s == k | _ => false)
  | _ => false

/-- Python dict.get(k): value of the first entry with key k, none otherwise
(and none on non-mappings). -/
def Yaml.lookup (y : Yaml) (k : String) : Option Yaml :=
  match y with
  | .obj es => es.lookup k
  | _ => none

/-- Python isinstance(v, list) on an optional looked-up value. -/
def isYamlList : Option Yaml → Bool
  | some (.arr _) => true
  | _ => false

/-- Python isinstance(v, dict) on an optional looked-up value. -/
def isYamlDict : Option Yaml → Bool
  | some (.obj _) => true
  | _ => false

/-- Sequence items of the value under key k, when it is a sequence. -/
def Yaml.listUnder (y : Yaml) (k : String) : List Yaml :=
  match y.lookup k with
  | some (.arr l) => l
  | _ => []

/-- State of one on-disk YAML file as the assessor sees it: absent, present
but rejected by yaml.safe_load (with the parser message), or parsed. -/
inductive FileState where
  | missing
  | unparsable (err : String)
  | parsed (doc : Yaml)

/-- WorkspaceAssessor.assess_overlay from assessor.py, over the state of the
overlay file (nm is overlay_path.name, used in the details strings).
Checks: existence, YAML validity, the overlay / info / actions top-level
keys (actions must be a list), then per-action target plus update-or-remove
structure.  Early returns on a missing or unparsable file leave summary
empty, exactly as the source does. -/
def assessOverlay (nm : String) (st : FileState) : AssessmentResult :=
  let r0 : AssessmentResult := { passed := true }
  match st with
  | .missing =>
      let r1 := r0.addCheck "overlay_exists" false (nm ++ " missing")
      { r1 with passed := false }
  | .unparsable e =>
      let r1 := r0.addCheck "overlay_exists" true (nm ++ " found")
      let r2 := r1.addCheck "valid_yaml" false ("Invalid YAML: " ++ e)
      { r2 with passed := false }
  | .parsed content =>
      let r1 := r0.addCheck "overlay_exists" true (nm ++ " found")
      let r2 := r1.addCheck "valid_yaml" true "Valid YAML syntax"
      let hasOverlayVersion := content.hasKey "overlay"
      let r3 := r2.addCheck "has_overlay_version" hasOverlayVersion
        ("\x27overlay\x27 field " ++ (if hasOverlayVersion then "present" else "missing"))
      let hasInfo := content.hasKey "info"
      let r4 := r3.addCheck "has_info" hasInfo
        ("\x27info\x27 field " ++ (if hasInfo then "present" else "missing"))
      let hasActions := content.hasKey "actions" && isYamlList (content.lookup "actions")
      let r5 := r4.addCheck "has_actions" hasActions
        ("\x27actions\x27 field " ++ (if hasActions then "present with entries" else "missing or empty"))
      let r6 := if hasOverlayVersion && hasInfo && hasActions then r5
                else { r5 with passed := false }
      let r7 :=
        if hasActions then
          (content.listUnder "actions").enum.foldl (fun r p =>
            let i := p.1
            let action := p.2
            let hasTarget := action.hasKey "target"
            let hasUpdate := action.hasKey "update" || action.hasKey "remove"
            let valid := hasTarget && hasUpdate
            let r' := r.addCheck ("action_" ++ toString i ++ "_valid") valid
              ("Action " ++ toString i ++ ": " ++
                (if valid then "valid" else "missing target or update/remove"))
            if valid then r' else { r' with passed := false }) r6
        else r6
      { r7 with summary := toString r7.passedCount ++ "/" ++ toString r7.checks.length ++ " checks passed" }

/-! Assertion engine, from evals/skill_eval/assertions.py. -/

/-- One assertion spec, a dict read with .get defaults: type defaults to the
empty string, target to "output", value to the empty string, valid_list to
the empty list. -/
structure Assertion where
  atype : String := ""
  target : String := "output"
  value : String := ""
  validList : List String := []

/-- One record of the list check_assertions returns.  Each branch of the
source builds a dict with a type and passed field plus, depending on the
branch, a value, pattern or invalid field; absent fields are none. -/
structure ARecord where
  atype : String
  passed : Bool
  value : Option String := none
  pattern : Option String := none
  invalid : Option (List String) := none
deriving DecidableEq, Repr

/-- Word-or-dash character class [\w-] of the extension and command regexes
(ASCII reading of \w). -/
def wordDash (c : Char) : Bool :=
  c.isAlphanum || c == '_' || c == '-'

/-- Index of the first occurrence of three consecutive backtick characters,
used to locate the closing fence of a markdown code block. -/
def firstTripleIdx : List Char → Option Nat
  | [] => none
  | l@(_ :: rest) =>
    if (fenceChars).isPrefixOf l then some 0 else (firstTripleIdx rest).map (· + 1)
where
  /-- The three-character closing fence. -/
  fenceChars : List Char := ['\x60', '\x60', '\x60']

/-- Scan step for re.findall over the pattern x-speakeasy-[\w-]+ : at each
position, either capture the literal prefix followed by a maximal nonempty
[\w-] run and resume after it (findall matches are non-overlapping and + is
greedy), or advance one character.  Fuel-indexed structural recursion; every
step consumes at least one character, so fuel = length is enough. -/
def findExtensionsGo : Nat → List Char → List String
  | 0, _ => []
  | _, [] => []
  | fuel + 1, l@(_ :: rest) =>
    if ("x-speakeasy-".toList).isPrefixOf l then
      let rem := l.drop 12
      let run := rem.takeWhile wordDash
      if run.isEmpty then findExtensionsGo fuel rest
      else ("x-speakeasy-" ++ String.mk run) :: findExtensionsGo fuel (rem.drop run.length)
    else findExtensionsGo fuel rest

/-- Matches of re.findall over the pattern x-speakeasy-[\w-]+. -/
def findExtensions (l : List Char) : List String :=
  findExtensionsGo l.length l

/-- Scan step for re.findall over the pattern speakeasy\s+[\w-]+ : the
literal word, a maximal nonempty whitespace run, then a maximal nonempty
[\w-] run; no match at a position advances one character. -/
def findCommandsGo : Nat → List Char → List String
  | 0, _ => []
  | _, [] => []
  | fuel + 1, l@(_ :: rest) =>
    if ("speakeasy".toList).isPrefixOf l then
      let rem := l.drop 9
      let ws := rem.takeWhile Char.isWhitespace
      let word := (rem.drop ws.length).takeWhile wordDash
      if ws.isEmpty || word.isEmpty then findCommandsGo fuel rest
      else ("speakeasy" ++ String.mk ws ++ String.mk word) ::
        findCommandsGo fuel ((rem.drop ws.length).drop word.length)
    else findCommandsGo fuel rest

/-- Matches of re.findall over the pattern speakeasy\s+[\w-]+. -/
def findCommands (l : List Char) : List String :=
  findCommandsGo l.length l

/-- Scan step for re.findall over a fenced-code-block pattern such as the
DOTALL regex matching an opening fence, a lazy body and a closing triple
backtick: at each position, if one of the opening fences matches, the body
runs to the first closing triple (lazy .*?) and scanning resumes after it;
with no closing triple left, no later opening fence can complete a match
either (its own leading backticks would have been that closing triple), so
the scan ends. -/
def fencedBlocksGo (fences : List (List Char)) : Nat → List Char → List String
  | 0, _ => []
  | _, [] => []
  | fuel + 1, l@(_ :: rest) =>
    match fences.find? (fun f => f.isPrefixOf l) with
    | some f =>
      let rem := l.drop f.length
      match firstTripleIdx rem with
      | some i => String.mk (rem.take i) :: fencedBlocksGo fences fuel (rem.drop (i + 3))
      | none => []
    | none => fencedBlocksGo fences fuel rest

/-- Captured bodies of re.findall over a fenced-code-block pattern. -/
def fencedBlocks (fences : List (List Char)) (l : List Char) : List String :=
  fencedBlocksGo fences l.length l

/-- Opening fences of the valid_yaml block pattern (three backticks, ya?ml,
newline). -/
def yamlFences : List (List Char) :=
  [("\x60\x60\x60yaml\n").toList, ("\x60\x60\x60yml\n").toList]

/-- Opening fence of the valid_json block pattern. -/
def jsonFences : List (List Char) :=
  [("\x60\x60\x60json\n").toList]

/-- Modelled from Python re (an external library): re.search compiles the
pattern and searches the text.  Compilation failure is modelled as
unbalanced parentheses — re.compile of "(" raises re.error — which is the
only failure mode this development exercises; for the metacharacter-free
patterns exercised here the search itself is literal substring search. -/
def parenBalanced : List Char → Bool :=
  go 0
where
  /-- Depth-counting scan over the pattern characters. -/
  go : Nat → List Char → Bool
    | d, [] => d == 0
    | d, c :: rest =>
      if c == '(' then go (d + 1) rest
      else if c == ')' then (if d == 0 then false else go (d - 1) rest)
      else go d rest

/-- Modelled regex-search oracle standing for bool(re.search(pattern, text))
wrapped in the exception behavior of the re module: an error value is the
re.error raised by compiling a malformed pattern. -/
def reSearchModel (pattern text : String) : Except String Bool :=
  if parenBalanced pattern.toList then .ok (substrB pattern text)
  else .error ("re.error: unbalanced parenthesis in pattern " ++ pattern)

/-- Record produced for one assertion, following the elif chain of
check_assertions in assertions.py; the regex search and the yaml/json block
parsers are external-library calls and enter as oracles (yamlOk s is true
when yaml.safe_load accepts s; parse failures of blocks are caught in the
source, so only the matches branch can propagate an exception).  A type
matching no branch appends no record, as in the source. -/
def checkOneAssertion (reSearch : String → String → Except String Bool)
    (yamlOk jsonOk : String → Bool) (output : String) (a : Assertion) :
    Except String (List ARecord) :=
  let text := if a.target == "output" then output else output
  if a.atype == "contains" then
    .ok [{ atype := a.atype, value := some a.value, passed := substrB a.value text }]
  else if a.atype == "not_contains" then
    .ok [{ atype := a.atype, value := some a.value, passed := !substrB a.value text }]
  else if a.atype == "matches" then
    match reSearch a.value text with
    | .error e => .error e
    | .ok b => .ok [{ atype := a.atype, pattern := some a.value, passed := b }]
  else if a.atype == "valid_yaml" then
    let blocks := fencedBlocks yamlFences text.toList
    .ok [{ atype := a.atype, passed := blocks.all yamlOk && decide (0 < blocks.length) }]
  else if a.atype == "valid_json" then
    let blocks := fencedBlocks jsonFences text.toList
    .ok [{ atype := a.atype, passed := blocks.all jsonOk && decide (0 < blocks.length) }]
  else if a.atype == "no_invalid_extensions" then
    let found := findExtensions text.toList
    let invalid := found.filter (fun e => !a.validList.contains e)
    .ok [{ atype := a.atype, passed := invalid.length == 0, invalid := some invalid }]
  else if a.atype == "no_invalid_commands" then
    let found := findCommands text.toList
    let invalid := found.filter (fun cmd => !a.validList.any (fun v => substrB v cmd))
    .ok [{ atype := a.atype, passed := invalid.length == 0, invalid := some invalid }]
  else
    .ok []

/-- check_assertions from assertions.py: folds the per-assertion records
into one list; an exception from any branch (in the source, only the
matches branch can raise, through re.search on a malformed pattern)
propagates to the caller. -/
def checkAssertions (reSearch : String → String → Except String Bool)
    (yamlOk jsonOk : String → Bool) (output : String) :
    List Assertion → Except String (List ARecord)
  | [] => .ok []
  | a :: rest => do
    let recs ← checkOneAssertion reSearch yamlOk jsonOk output a
    let tail ← checkAssertions reSearch yamlOk jsonOk output rest
    return recs ++ tail

/-! Workspace file-system model.  A workspace is a finite set of text files
and directories, addressed by slash-separated relative paths (modelled as
segment lists). -/

/-- Post-execution workspace contents: text files (path segments mapped to
content) and directories. -/
structure Fs where
  files : List (List String × String) := []
  dirs : List (List String) := []

/-- Membership of a path among the regular files. -/
def Fs.isFile (fs : Fs) (p : List String) : Bool :=
  fs.files.any (fun e => e.1 == p)

/-- Path.is_dir. -/
def Fs.isDir (fs : Fs) (p : List String) : Bool :=
  fs.dirs.contains p

/-- Path.exists: true for regular files and for directories. -/
def Fs.pathExists (fs : Fs) (p : List String) : Bool :=
  fs.isFile p || fs.isDir p

/-- Path.read_text on a regular file. -/
def Fs.readFile (fs : Fs) (p : List String) : Option String :=
  (fs.files.find? (fun e => e.1 == p)).map (fun e => e.2)

/-- Python repr of a list of strings, as interpolated into f-string details
(single-quoted elements). -/
def pyListRepr (l : List String) : String :=
  "[" ++ String.intercalate ", " (l.map (fun s => "\x27" ++ s ++ "\x27")) ++ "]"

/-- Match of one glob segment against one path segment: a literal, or a
single-star wildcard such as *.go (the only in-segment wildcard shape the
assessor uses). -/
def segMatch (pat seg : String) : Bool :=
  if substrB "*" pat then
    match pat.splitOn "*" with
    | [pre, suf] =>
        seg.startsWith pre && seg.endsWith suf && decide (pre.length + suf.length ≤ seg.length)
    | _ => pat == seg
  else pat == seg

/-- Match of a glob pattern (segment list) against a relative path (segment
list): ** matches zero or more leading segments, other segments match one
path segment each — pathlib.Path.glob over the patterns the assessor uses. -/
def globMatch : List String → List String → Bool
  | [], segs => segs.isEmpty
  | p :: prest, segs =>
    if p == "**" then
      (List.range (segs.length + 1)).any (fun k => globMatch prest (segs.drop k))
    else
      match segs with
      | [] => false
      | s :: srest => segMatch p s && globMatch prest srest

/-- base.glob(pattern): paths (files and directories) under base whose
remainder matches the pattern. -/
def Fs.glob (fs : Fs) (base : List String) (pat : String) : List (List String) :=
  (fs.files.map (fun e => e.1) ++ fs.dirs).filter
    (fun p => base.isPrefixOf p && globMatch (splitPath pat) (p.drop base.length))

/-- WorkspaceAssessor._check_file_exists: existence of base / rel_path. -/
def checkFileExists (fs : Fs) (base : List String) (relPath : String) : Bool × String :=
  let e := fs.pathExists (base ++ splitPath relPath)
  (e, relPath ++ (if e then " found" else " missing"))

/-- WorkspaceAssessor._check_dir_exists. -/
def checkDirExists (fs : Fs) (base : List String) (relPath : String) : Bool × String :=
  let e := fs.isDir (base ++ splitPath relPath)
  (e, relPath ++ "/ " ++ (if e then "found" else "missing"))

/-- WorkspaceAssessor._check_any_file_exists: the first existing candidate
wins. -/
def checkAnyFileExists (fs : Fs) (base : List String) (paths : List String) : Bool × String :=
  match paths.find? (fun p => fs.pathExists (base ++ splitPath p)) with
  | some p => (true, "Found " ++ p)
  | none => (false, "None of " ++ pyListRepr paths ++ " found")

/-- WorkspaceAssessor._check_file_pattern: nonemptiness of a glob. -/
def checkFilePattern (fs : Fs) (base : List String) (pat : String) : Bool × String :=
  let ms := fs.glob base pat
  if ms.length > 0 then (true, "Found " ++ toString ms.length ++ " files matching " ++ pat)
  else (false, "No files matching " ++ pat)

/-- WorkspaceAssessor._get_language_checks: the per-language ordered check
table (name, check function over the SDK directory), defaulting to an empty
list for unknown targets. -/
def languageChecks (target : String) : List (String × (Fs → List String → Bool × String)) :=
  let table : List (String × List (String × (Fs → List String → Bool × String))) :=
    [("typescript",
      [("has_package_json", fun fs d => checkFileExists fs d "package.json"),
       ("has_src_directory", fun fs d => checkDirExists fs d "src"),
       ("has_sdk_entrypoint", fun fs d => checkAnyFileExists fs d ["src/index.ts", "src/sdk.ts"])]),
     ("python",
      [("has_pyproject", fun fs d => checkAnyFileExists fs d ["pyproject.toml", "setup.py"]),
       ("has_src_directory", fun fs d => checkDirExists fs d "src"),
       ("has_init_py", fun fs d => checkFilePattern fs d "**/__init__.py")]),
     ("go",
      [("has_go_mod", fun fs d => checkFileExists fs d "go.mod"),
       ("has_go_files", fun fs d => checkFilePattern fs d "*.go")]),
     ("java",
      [("has_pom_or_gradle", fun fs d => checkAnyFileExists fs d ["pom.xml", "build.gradle"]),
       ("has_src_main", fun fs d => checkDirExists fs d "src/main")]),
     ("terraform",
      [("has_provider_go", fun fs d => checkFilePattern fs d "**/provider.go"),
       ("has_go_mod", fun fs d => checkFileExists fs d "go.mod")])]
  (table.lookup target).getD []

/-- WorkspaceAssessor.assess_generation from assessor.py: the workflow
manifest existence check, the SDK-output-directory probe (the four
conventional locations, then the gen.yaml plus root-marker fallback), then
expected artifacts and the per-language structural checks.  A missing SDK
directory returns immediately (summary left empty), as in the source. -/
def assessGeneration (fs : Fs) (target : String)
    (expectedArtifacts : Option (List String)) : AssessmentResult :=
  let r0 : AssessmentResult := { passed := true }
  let workflowExists := fs.pathExists [".speakeasy", "workflow.yaml"]
  let r1 := r0.addCheck "workflow_exists" workflowExists
    (".speakeasy/workflow.yaml " ++ (if workflowExists then "found" else "missing"))
  let r1 := if workflowExists then r1 else { r1 with passed := false }
  let sdkPatterns := ["sdk/" ++ target, "sdks/" ++ target, target, "sdk"]
  let sdkDir : Option (List String) :=
    match sdkPatterns.find? (fun p => fs.isDir (splitPath p)) with
    | some p => some (splitPath p)
    | none =>
        if fs.pathExists [".speakeasy", "gen.yaml"] then
          if fs.isDir ["src"] || fs.pathExists ["go.mod"] || fs.pathExists ["pyproject.toml"]
              || fs.pathExists ["package.json"] then
            some []
          else none
        else none
  let sdkDirExists := sdkDir.isSome
  let r2 := r1.addCheck "sdk_directory_exists" sdkDirExists
    ("SDK output directory " ++
      (match sdkDir with
       | some p => "found at " ++ (if p.isEmpty then "(workspace root)" else String.intercalate "/" p)
       | none => "not found"))
  match sdkDir with
  | none => { r2 with passed := false }
  | some d =>
      let arts := expectedArtifacts.getD []
      let r3 := arts.foldl (fun r artifact =>
        let e := fs.pathExists (d ++ splitPath artifact)
        let r' := r.addCheck ("artifact_" ++ artifact) e
          (artifact ++ (if e then " found" else " missing"))
        if e then r' else { r' with passed := false }) r2
      let r4 := (languageChecks target).foldl (fun r nf =>
        let res := nf.2 fs d
        let r' := r.addCheck nf.1 res.1 res.2
        if res.1 then r' else { r' with passed := false }) r3
      { r4 with summary := toString r4.passedCount ++ "/" ++ toString r4.checks.length ++ " checks passed" }

/-- Language-specific hook locations of assess_hooks_preserved (hook name
and relative path). -/
def hookPathsTable : List (String × List (String × String)) :=
  [("typescript", [("registration", "src/hooks/registration.ts"),
                   ("types", "src/hooks/types.ts")]),
   ("python", [("registration", "src/hooks/registration.py")]),
   ("go", [("registration", "internal/hooks/registration.go")]),
   ("java", [("registration", "src/main/java/hooks/HookRegistration.java")]),
   ("csharp", [("registration", "Hooks/HookRegistration.cs")]),
   ("ruby", [("registration", "sdk_hooks/registration.rb")]),
   ("php", [("registration", "src/Hooks/HookRegistration.php")])]

/-- Loop body of WorkspaceAssessor.assess_hooks_preserved from assessor.py:
for one hook location, an existence check, and — only when the file exists
— a non-emptiness check on its stripped content.  Neither check ever writes
result.passed. -/
def hookStep (fs : Fs) (r : AssessmentResult) (hp : String × String) : AssessmentResult :=
  let hookPath := splitPath hp.2
  let ex := fs.pathExists hookPath
  let r1 := r.addCheck ("hook_" ++ hp.1 ++ "_exists") ex
    (hp.2 ++ (if ex then " found" else " not found"))
  if ex then
    let content := (fs.readFile hookPath).getD ""
    let hasContent := decide (0 < (pyStrip content).length)
    r1.addCheck ("hook_" ++ hp.1 ++ "_has_content") hasContent
      (hp.2 ++ (if hasContent then " has content" else " is empty"))
  else r1

/-- WorkspaceAssessor.assess_hooks_preserved continued: the per-target loop
over hookStep. -/
def assessHooksPreserved (fs : Fs) (target : String) : AssessmentResult :=
  let r0 : AssessmentResult := { passed := true }
  let paths := (hookPathsTable.lookup (pyLower target)).getD []
  if paths.isEmpty then
    let r1 := r0.addCheck "hooks_defined" false ("No hook paths defined for target: " ++ target)
    { r1 with summary := "No hooks to verify for this target" }
  else
    let r := paths.foldl (hookStep fs) r0
    { r with summary := toString r.passedCount ++ "/" ++ toString r.checks.length ++ " hook checks passed" }

/-! Pagination-configuration assessment. -/

mutual

/-- Membership test k in str(y), the Python pre-test the assessor applies to
an action update: true when the key occurs as (a substring of) a mapping
key or inside a string scalar anywhere in the value.  Where the assessor
uses it, the subsequent isinstance-and-key test is what decides collection:
a mapping carrying the key at top level always satisfies this test, so the
two phrasings collect the same configurations. -/
def Yaml.mentions (k : String) : Yaml → Bool
  | .obj es => pairsMention k es
  | .arr items => listMention k items
  | .str s => substrB k s
  | .null => false
  | .bool _ => false
  | .num _ => false

/-- Scan of a sequence for Yaml.mentions. -/
def listMention (k : String) : List Yaml → Bool
  | [] => false
  | y :: rest => Yaml.mentions k y || listMention k rest

/-- Scan of mapping entries for Yaml.mentions. -/
def pairsMention (k : String) : List (String × Yaml) → Bool
  | [] => false
  | e :: rest => substrB k e.1 || Yaml.mentions k e.2 || pairsMention k rest

end

/-- Python str() of a scalar, as interpolated into check details (container
renderings are abbreviated; the assessments only interpolate scalars). -/
def pyStrScalar : Yaml → String
  | .str s => s
  | .bool b => if b then "True" else "False"
  | .null => "None"
  | .num q => toString q
  | .arr _ => "[...]"
  | .obj _ => "\x7b...\x7d"

/-- Entries of the mapping under key k, when it is a mapping. -/
def Yaml.objEntriesUnder (y : Yaml) (k : String) : List (String × Yaml) :=
  match y.lookup k with
  | some (.obj es) => es
  | _ => []

/-- Per-configuration validation step of assess_pagination_config: the
has_type check (a missing type continues to the next configuration), the
valid_type whitelist, the inputs list and outputs mapping checks, and the
cursor-specific nextCursor output check. -/
def paginationConfigStep (r : AssessmentResult) (p : Nat × Yaml) : AssessmentResult :=
  let i := p.1
  let config := p.2
  let pre := "action_" ++ toString i ++ "_pagination"
  let hasType := config.hasKey "type"
  let r1 := r.addCheck (pre ++ "_has_type") hasType
    ("type: " ++ (match config.lookup "type" with | some v => pyStrScalar v | none => "missing"))
  if !hasType then { r1 with passed := false }
  else
    let pagType := config.lookup "type"
    let typeValid := match pagType with
      | some (.str s) => s == "cursor" || s == "offsetLimit" || s == "offset"
      | _ => false
    let typeStr := match pagType with | some v => pyStrScalar v | none => "None"
    let r2 := r1.addCheck (pre ++ "_valid_type") typeValid
      ("type \x27" ++ typeStr ++ "\x27 " ++
        (if typeValid then "is valid"
         else "not in " ++ pyListRepr ["cursor", "offsetLimit", "offset"]))
    let r2 := if typeValid then r2 else { r2 with passed := false }
    let hasInputs := config.hasKey "inputs" && isYamlList (config.lookup "inputs")
    let r3 := r2.addCheck (pre ++ "_has_inputs") hasInputs
      (if hasInputs then "inputs: " ++ toString (config.listUnder "inputs").length ++ " defined"
       else "inputs missing or invalid")
    let r3 := if hasInputs then r3 else { r3 with passed := false }
    let hasOutputs := config.hasKey "outputs" && isYamlDict (config.lookup "outputs")
    let r4 := r3.addCheck (pre ++ "_has_outputs") hasOutputs
      (if hasOutputs then "outputs: " ++ pyListRepr ((config.objEntriesUnder "outputs").map (fun e => e.1))
       else "outputs missing or invalid")
    let r4 := if hasOutputs then r4 else { r4 with passed := false }
    if (match pagType with | some (.str s) => s == "cursor" | _ => false) && hasOutputs then
      let outputs := config.objEntriesUnder "outputs"
      let hasNextCursor := outputs.any (fun e => e.1 == "nextCursor")
      let r5 := r4.addCheck (pre ++ "_cursor_has_next") hasNextCursor
        ("nextCursor output " ++ (if hasNextCursor then "present" else "missing for cursor pagination"))
      if hasNextCursor then r5 else { r5 with passed := false }
    else r4

/-- WorkspaceAssessor.assess_pagination_config from assessor.py, over the
overlay file state (pathStr is str(overlay_path)).  Collects the
x-speakeasy-pagination blocks of action updates (the membership pre-test on
str(update) followed by the isinstance-and-key test, which is what decides
collection), then validates each collected block. -/
def assessPaginationConfig (pathStr : String) (st : FileState) : AssessmentResult :=
  let r0 : AssessmentResult := { passed := true }
  match st with
  | .missing =>
      let r1 := r0.addCheck "overlay_exists" false (pathStr ++ " not found")
      { r1 with passed := false }
  | .unparsable e =>
      let r1 := r0.addCheck "valid_yaml" false ("Invalid YAML: " ++ e)
      { r1 with passed := false }
  | .parsed content =>
      let r1 := r0.addCheck "valid_yaml" true "Valid YAML"
      let actions := content.listUnder "actions"
      let paginationConfigs := actions.enum.filterMap (fun p =>
        let update := (p.2.lookup "update").getD (.obj [])
        if Yaml.mentions "x-speakeasy-pagination" update then
          match update with
          | .obj es => (es.lookup "x-speakeasy-pagination").map (fun v => (p.1, v))
          | _ => none
        else none)
      if paginationConfigs.isEmpty then
        let r2 := r1.addCheck "has_pagination" false "No x-speakeasy-pagination found in actions"
        { r2 with passed := false }
      else
        let r2 := r1.addCheck "has_pagination" true
          ("Found " ++ toString paginationConfigs.length ++ " pagination config(s)")
        let r3 := paginationConfigs.foldl paginationConfigStep r2
        { r3 with summary := toString r3.passedCount ++ "/" ++ toString r3.checks.length ++ " pagination checks passed" }

/-! SDK compilation assessment.  The external build/typecheck subprocesses
enter as an outcome oracle: running a command either exits with a code and
captured stderr, times out, raises FileNotFoundError, or raises some other
exception — the four branches assess_sdk_compilation distinguishes. -/

/-- Outcome of one subprocess.run call. -/
inductive StepOutcome where
  | exited (code : Int) (stderr : String)
  | timedOut
  | notFound (msg : String)
  | failure (msg : String)

/-- One build step: step name, argv, timeout in seconds. -/
abbrev BuildStep := String × List String × Nat

/-- The quick-mode command table of assess_sdk_compilation (fast checks, no
full dependency install). -/
def quickCommands : List (String × List BuildStep) :=
  [("typescript",
    [("install_deps", ["npm", "install", "--ignore-scripts", "--prefer-offline"], 30),
     ("typecheck", ["npx", "tsc", "--noEmit"], 15)]),
   ("python", [("syntax_check", ["python", "-m", "compileall", "-q", "src"], 5)]),
   ("go", [("vet", ["go", "vet", "./..."], 15)]),
   ("java", [("compile", ["./gradlew", "classes", "-q", "--no-daemon"], 60)]),
   ("csharp", [("build", ["dotnet", "build", "--no-restore", "-v", "q"], 30)]),
   ("php", [("syntax", ["php", "-l", "src/"], 5)]),
   ("ruby", [("syntax", ["ruby", "-c", "-W0", "lib/"], 5)]),
   ("terraform", [("vet", ["go", "vet", "./..."], 15)])]

/-- The full-mode command table (complete build including dependencies). -/
def fullCommands : List (String × List BuildStep) :=
  [("typescript",
    [("install_deps", ["npm", "install"], 60),
     ("compile", ["npm", "run", "build"], 30)]),
   ("python",
    [("install_check", ["pip", "install", "-e", ".", "--dry-run"], 15),
     ("typecheck", ["mypy", "src", "--ignore-missing-imports"], 30)]),
   ("go", [("compile", ["go", "build", "./..."], 30)]),
   ("java", [("compile", ["./gradlew", "build", "-x", "test", "--no-daemon"], 90)]),
   ("csharp",
    [("restore", ["dotnet", "restore"], 30),
     ("build", ["dotnet", "build"], 30)]),
   ("php",
    [("install", ["composer", "install", "--no-dev"], 30),
     ("analyze", ["./vendor/bin/phpstan", "analyse", "src"], 15)]),
   ("ruby",
    [("install", ["bundle", "install"], 30),
     ("typecheck", ["bundle", "exec", "srb", "tc"], 15)]),
   ("terraform", [("compile", ["go", "build", "./..."], 30)])]

/-- First 200 characters of captured stderr with newlines replaced by
spaces, as interpolated into a failing build check. -/
def errPreview (s : String) : String :=
  String.mk ((s.toList.take 200).map (fun c => if c == '\n' then ' ' else c))

/-- The step loop of assess_sdk_compilation: each step runs through the
subprocess oracle; a non-zero exit, a timeout, or any exception other than
a quick-mode FileNotFoundError records a failing check, sets passed false
and stops (the break in the source); a quick-mode FileNotFoundError records
a passing check annotated as skipped and continues with the next step. -/
def runBuildSteps (execO : List String → Nat → StepOutcome) (mode : String) :
    List BuildStep → AssessmentResult → AssessmentResult
  | [], r => r
  | st :: rest, r =>
    let nm := st.1
    let cmd := st.2.1
    let tmo := st.2.2
    match execO cmd tmo with
    | .exited code stderr =>
        let success := code == 0
        let details := "exit code " ++ toString code ++
          (if !success && stderr != "" then ": " ++ errPreview stderr ++ "..." else "")
        let r' := r.addCheck ("build_" ++ nm) success details
        if success then runBuildSteps execO mode rest r'
        else { r' with passed := false }
    | .timedOut =>
        { r.addCheck ("build_" ++ nm) false ("timed out after " ++ toString tmo ++ "s") with
          passed := false }
    | .notFound msg =>
        if mode == "quick" then
          runBuildSteps execO mode rest
            (r.addCheck ("build_" ++ nm) true
              ("skipped (command not found: " ++ cmd.headD "" ++ ")"))
        else
          { r.addCheck ("build_" ++ nm) false ("command not found: " ++ msg) with
            passed := false }
    | .failure msg =>
        { r.addCheck ("build_" ++ nm) false ("error: " ++ msg) with passed := false }

/-- WorkspaceAssessor.assess_sdk_compilation from assessor.py, over a
subprocess outcome oracle (the oracle is already scoped to the SDK
directory the source passes as cwd).  An unknown target records a failing
build_commands_available check and returns early with summary left empty,
as in the source. -/
def assessSdkCompilation (execO : List String → Nat → StepOutcome)
    (target mode : String) : AssessmentResult :=
  let r0 : AssessmentResult := { passed := true }
  let commandsMap := if mode == "quick" then quickCommands else fullCommands
  let commands := (commandsMap.lookup target).getD []
  if commands.isEmpty then
    let r1 := r0.addCheck "build_commands_available" false
      ("No " ++ mode ++ " build commands defined for target: " ++ target)
    { r1 with passed := false }
  else
    let r1 := r0.addCheck "build_commands_available" true
      (mode.capitalize ++ " validation for " ++ target)
    let r2 := runBuildSteps execO mode commands r1
    { r2 with summary := toString r2.passedCount ++ "/" ++ toString r2.checks.length ++ " " ++ mode ++ " checks passed" }

/-! Lint output assessment. -/

/-- Word character class \w of the word-boundary assertion (ASCII reading). -/
def isWordChar (c : Char) : Bool :=
  c.isAlphanum || c == '_'

/-- Scan counting the case-insensitive whole-word occurrences of w (given
lowercased): a position matches when the next chars, lowercased, equal w
and both neighbours (the previous character and the character after the
match) are absent or non-word — the two \b assertions.  Matches of a
whole-word pattern cannot overlap, so counting matching positions agrees
with len(re.findall). -/
def countWordOccGo (w : List Char) : Option Char → List Char → Nat
  | _, [] => 0
  | prev, l@(c :: rest) =>
    let okLeft := match prev with | some p => !isWordChar p | none => true
    let okRight := match l.drop w.length with | [] => true | d :: _ => !isWordChar d
    let m := ((l.take w.length).map Char.toLower == w) && okLeft && okRight
    (if m then 1 else 0) + countWordOccGo w (some c) rest

/-- len(re.findall(r"\bWORD\b", text, re.IGNORECASE)). -/
def countWordCI (w : String) (t : String) : Nat :=
  countWordOccGo (w.toList.map Char.toLower) none t.toList

/-- Index of the first occurrence of a literal in a character list. -/
def firstOccIdx (lit : List Char) : List Char → Option Nat
  | [] => none
  | l@(_ :: rest) =>
    if lit.isPrefixOf l then some 0 else (firstOccIdx lit rest).map (· + 1)

/-- Case-insensitive substring search, re.search of a literal pattern with
re.IGNORECASE. -/
def substrCI (needle hay : String) : Bool :=
  substrB (pyLower needle) (pyLower hay)

/-- re.search(r"invalid.*\$ref", text, re.IGNORECASE): some line (dot does
not cross newlines) holds "invalid" followed, at or after its end, by
"$ref", case-insensitively. -/
def invalidRefFound (t : String) : Bool :=
  (splitOnChar '\n' (pyLower t).toList).any (fun line =>
    match firstOccIdx ("invalid".toList) line with
    | some i => decide (List.IsInfix "$ref".toList (line.drop (i + 7)))
    | none => false)

/-- WorkspaceAssessor.assess_lint_output from assessor.py: counts
whole-word error/warning occurrences, fails on a positive error count, and
records the three known-problem-pattern checks (which never write passed). -/
def assessLintOutput (lintOutput : String) : AssessmentResult :=
  let r0 : AssessmentResult := { passed := true }
  let errorCount := countWordCI "error" lintOutput
  let warningCount := countWordCI "warning" lintOutput
  let r1 := r0.addCheck "no_errors" (errorCount == 0) (toString errorCount ++ " errors found")
  let r2 := r1.addCheck "warnings_only" true (toString warningCount ++ " warnings found")
  let r2 := if errorCount > 0 then { r2 with passed := false } else r2
  let commonIssues : List (Bool × String) :=
    [(substrCI "missing operationId" lintOutput, "missing_operation_ids"),
     (substrCI "missing description" lintOutput, "missing_descriptions"),
     (invalidRefFound lintOutput, "invalid_refs")]
  let r3 := commonIssues.foldl (fun r pr =>
    r.addCheck pr.2 (!pr.1)
      (String.mk (pr.2.toList.map (fun c => if c == '_' then ' ' else c)) ++ " " ++
        (if pr.1 then "found" else "not found"))) r2
  { r3 with summary := toString errorCount ++ " errors, " ++ toString warningCount ++ " warnings" }

/-! Result tracker and trend aggregation, from evals/skill_eval/tracker.py.
The results directory is a list of file names with parsed JSON content
(none when json.loads raises); JSON values reuse the Yaml value type. -/

/-- Match of the strict result-file naming pattern, the regex
matching eight digits, an underscore, six digits and the .json suffix. -/
def isTimestampName (s : String) : Bool :=
  let cs := s.toList
  cs.length == 20 && (cs.take 8).all Char.isDigit && cs.getD 8 ' ' == '_'
    && ((cs.drop 9).take 6).all Char.isDigit && cs.drop 15 == ".json".toList

/-- Lexicographic order on code points, Python string comparison. -/
def lexLe : List Char → List Char → Bool
  | [], _ => true
  | _ :: _, [] => false
  | a :: as, b :: bs => if a < b then true else if b < a then false else lexLe as bs

/-- Insertion into a name-descending list (sorted with reverse=True). -/
def insertNameDesc (x : String × Option Yaml) :
    List (String × Option Yaml) → List (String × Option Yaml)
  | [] => [x]
  | y :: rest => if lexLe y.1.toList x.1.toList then x :: y :: rest else y :: insertNameDesc x rest

/-- Name-descending sort of the result files. -/
def sortNameDesc (l : List (String × Option Yaml)) : List (String × Option Yaml) :=
  l.foldr insertNameDesc []

/-- EvalTracker.get_recent_results: the n most recent timestamp-named
files, sorted by file name descending, unparsable files skipped. -/
def getRecentResults (files : List (String × Option Yaml)) (n : Nat) : List Yaml :=
  ((sortNameDesc (files.filter (fun f => isTimestampName f.1))).take n).filterMap (fun f => f.2)

/-- Number read from a JSON field, with the 0 default the tracker uses
(the records the tracker writes store numbers there). -/
def numUnder (y : Yaml) (k : String) : Rat :=
  match y.lookup k with
  | some (.num q) => q
  | _ => 0

/-- r.get("results", r): the wrapped results object when present, the
record itself otherwise. -/
def resultsOf (r : Yaml) : Yaml :=
  match r.lookup "results" with
  | some v => v
  | none => r

/-- Python truthiness of a JSON value. -/
def yamlTruthy : Yaml → Bool
  | .null => false
  | .bool b => b
  | .num q => q != 0
  | .str st => st != ""
  | .arr l => !l.isEmpty
  | .obj m => !m.isEmpty

/-- d.get("cost_usd", 0) or 0: the stored number when present and truthy,
else 0. -/
def costOf (d : Yaml) : Rat :=
  match d.lookup "cost_usd" with
  | some (.num q) => q
  | _ => 0

/-- Per-metric slice of the trend summary: latest value, window mean, raw
most-recent-first sequence. -/
structure Metric where
  latest : Rat
  avg : Rat
  trend : List Rat
deriving DecidableEq, Repr

/-- The latest / avg / trend triple the tracker builds for one metric list
(latest is the head, the mean guards against an empty list). -/
def mkMetric (l : List Rat) : Metric :=
  { latest := l.headD 0,
    avg := if l.isEmpty then 0 else l.sum / (l.length : Rat),
    trend := l }

/-- Return value of get_trend_summary: the explicit no-data dict, or the
per-metric summaries. -/
inductive TrendSummary where
  | err (msg : String)
  | ok (count : Nat) (pass_rate cost_usd skill_invocation_rate avg_turns : Metric)
deriving DecidableEq, Repr

/-- EvalTracker.get_trend_summary from tracker.py: loads the n most recent
records, returns the no-data dict on an empty window, else builds the four
metric summaries (pass rate per record; summed detail cost per record;
skill-invocation fraction per record, 0 for empty details; average turns
only over records with truthy turns data). -/
def getTrendSummary (files : List (String × Option Yaml)) (n : Nat) : TrendSummary :=
  let recent := getRecentResults files n
  if recent.isEmpty then .err "No results found"
  else
    let passRates := recent.map (fun r => numUnder (resultsOf r) "pass_rate")
    let costs := recent.map (fun r =>
      (((resultsOf r).listUnder "details").map costOf).sum)
    let skillInvocationRates := recent.map (fun r =>
      let ds := (resultsOf r).listUnder "details"
      if ds.isEmpty then 0
      else ((ds.filter (fun d =>
        match d.lookup "expected_skill_invoked" with
        | some v => yamlTruthy v
        | none => false)).length : Rat) / (ds.length : Rat))
    let avgTurnsList := recent.filterMap (fun r =>
      let ds := (resultsOf r).listUnder "details"
      if ds.isEmpty then none
      else
        let turnsData := ds.filterMap (fun d =>
          match d.lookup "turns_used" with
          | some v => if yamlTruthy v then some (numUnder d "turns_used") else none
          | none => none)
        if turnsData.isEmpty then none
        else some (turnsData.sum / (turnsData.length : Rat)))
    .ok recent.length (mkMetric passRates) (mkMetric costs)
      (mkMetric skillInvocationRates) (mkMetric avgTurnsList)

/-! Workspace snapshot and diff, from evals/skill_eval/workspace.py.  The
directory tree is a finite map from relative paths to text contents; the
sha256 content hash enters as an oracle. -/

/-- Workspace state: current files and the optional baseline snapshot
(relative path mapped to content hash). -/
structure Ws where
  fs : List (List String × String) := []
  initialState : Option (List (List String × String)) := none

/-- Workspace._snapshot_state: every file mapped to the hash of its
content. -/
def snapshotState (hash : String → String) (fs : List (List String × String)) :
    List (List String × String) :=
  fs.map (fun e => (e.1, hash e.2))

/-- Workspace.write_file: overwrite or create. -/
def wsWriteFile (fs : List (List String × String)) (p : List String) (content : String) :
    List (List String × String) :=
  if fs.any (fun e => e.1 == p) then
    fs.map (fun e => if e.1 == p then (p, content) else e)
  else fs ++ [(p, content)]

/-- Workspace.setup: writes the OpenAPI spec, the optional gen.yaml, the
overlay files, then captures the baseline snapshot. -/
def setup (hash : String → String) (ws : Ws) (specContent : String)
    (genYaml : Option String) (overlays : List (String × String)) : Ws :=
  let fs1 := wsWriteFile ws.fs ["openapi.yaml"] specContent
  let fs2 := match genYaml with
    | some g => wsWriteFile fs1 ["gen.yaml"] g
    | none => fs1
  let fs3 := overlays.foldl (fun fs nc => wsWriteFile fs ["overlays", nc.1] nc.2) fs2
  { fs := fs3, initialState := some (snapshotState hash fs3) }

/-- Ascending path sort (sorted over the set of relative paths). -/
def insertPathAsc (x : List String) : List (List String) → List (List String)
  | [] => [x]
  | y :: rest =>
    if lexLe (String.intercalate "/" x).toList (String.intercalate "/" y).toList then x :: y :: rest
    else y :: insertPathAsc x rest

/-- Sorted list of paths. -/
def sortPathsAsc (l : List (List String)) : List (List String) :=
  l.foldr insertPathAsc []

/-- The added / removed / modified / unchanged partition get_changes
returns. -/
structure Changes where
  added : List (List String)
  removed : List (List String)
  modified : List (List String)
  unchanged : List (List String)
deriving DecidableEq, Repr

/-- Result of Workspace.get_changes: the uninitialized-error dict, or the
change partition. -/
inductive ChangesResult where
  | err (msg : String)
  | ok (c : Changes)
deriving DecidableEq, Repr

/-- Workspace.get_changes from workspace.py: diffs a fresh snapshot against
the baseline by key-set comparison and per-key hash comparison. -/
def getChanges (hash : String → String) (ws : Ws) : ChangesResult :=
  match ws.initialState with
  | none => .err "No initial state captured"
  | some initial =>
      let current := snapshotState hash ws.fs
      let curKeys := current.map (fun e => e.1)
      let initKeys := initial.map (fun e => e.1)
      let added := curKeys.filter (fun k => !initKeys.contains k)
      let removed := initKeys.filter (fun k => !curKeys.contains k)
      let modified := curKeys.filter (fun k =>
        initKeys.contains k && !(current.lookup k == initial.lookup k))
      let unchanged := curKeys.filter (fun k => !added.contains k && !modified.contains k)
      .ok { added := sortPathsAsc added, removed := sortPathsAsc removed,
            modified := sortPathsAsc modified, unchanged := sortPathsAsc unchanged }

/-! Runner aggregation, from evals/skill_eval/runner.py.  The external
agent evaluation enters as an oracle from test case to result detail; the
suite is the already-loaded test list (fixture loading is I/O). -/

/-- One loaded test case: name, skill, type, and the fixture-resolution
error field when resolution failed. -/
structure TestRec where
  name : String := "unknown"
  skill : String := "unknown"
  ttype : String := "unknown"
  error : Option String := none

/-- One per-test detail entry of the suite results. -/
structure RunDetail where
  name : String
  skill : String := "unknown"
  ttype : String := "unknown"
  passed : Bool
  skipped : Bool := false
  error : Option String := none

/-- Suite-level results of EvalRunner.run. -/
structure RunResults where
  suite : String
  total : Nat
  passed : Nat
  failed : Nat
  skipped : Nat
  pass_rate : Rat
  details : List RunDetail

/-- EvalRunner.run from runner.py (aggregation part): applies the optional
skill and name filters, partitions into skipped (fixture error) and valid
tests, evaluates the valid ones through the oracle, and computes
pass_rate = passed / total with total counting skipped tests too, 0 when
total is 0. -/
def runEval (evalFn : TestRec → RunDetail) (suite : String) (tests : List TestRec)
    (skillFilter testFilter : Option String) : RunResults :=
  let tests : List TestRec := match skillFilter with
    | some sf => tests.filter (fun t => t.skill == sf)
    | none => tests
  let tests : List TestRec := match testFilter with
    | some tf => tests.filter (fun t => substrB tf t.name)
    | none => tests
  let validTests := tests.filter (fun t => t.error.isNone)
  let skippedTests := tests.filter (fun t => t.error.isSome)
  let skippedDetails := skippedTests.map (fun t =>
    { name := t.name, skill := t.skill, ttype := t.ttype,
      passed := false, skipped := true, error := t.error : RunDetail })
  let testResults := validTests.map (fun t => { evalFn t with name := t.name })
  let passedCount := (testResults.filter (fun d => d.passed)).length
  let failedCount := (testResults.filter (fun d => !d.passed)).length
  let total := tests.length
  { suite := suite, total := total, passed := passedCount, failed := failedCount,
    skipped := skippedTests.length,
    pass_rate := if total > 0 then (passedCount : Rat) / (total : Rat) else 0,
    details := skippedDetails ++ testResults }

/-- Overlay document with all three top-level keys present and actions bound
to an empty sequence. -/
def emptyActionsOverlay : Yaml :=
  .obj [("overlay", .str "1.0.0"),
        ("info", .obj [("title", .str "t")]),
        ("actions", .arr [])]

/-- Overlay document of the pagination end-to-end scenario: one action whose
update carries a cursor pagination block with inputs and outputs but no
nextCursor output. -/
def paginationCursorNoNext : Yaml :=
  .obj [("overlay", .str "1.0.0"),
        ("info", .obj [("title", .str "x")]),
        ("actions", .arr [
          .obj [("target", .str "$.paths"),
                ("update", .obj [("x-speakeasy-pagination",
                  .obj [("type", .str "cursor"),
                        ("inputs", .arr [.str "cursor"]),
                        ("outputs", .obj [("results", .str "$.data")])])])]])]

/-- Workspace holding one existing but empty Python hook file. -/
def emptyHookFs : Fs :=
  { files := [(["src", "hooks", "registration.py"], "")], dirs := [] }

/-- The empty workspace: no files, no directories. -/
def emptyFs : Fs := {}

/-- Synthetic results directory of the trend scenario: five timestamp-named
records whose pass rates are, most recent first, 1.0, 0.8, 0.6, 0.4, 0.2
(each with an empty details list), listed here oldest first. -/
def trendFiles : List (String × Option Yaml) :=
  [("20250101_120000.json", some (.obj [("results", .obj [("pass_rate", .num (1/5)), ("details", .arr [])])])),
   ("20250102_120000.json", some (.obj [("results", .obj [("pass_rate", .num (2/5)), ("details", .arr [])])])),
   ("20250103_120000.json", some (.obj [("results", .obj [("pass_rate", .num (3/5)), ("details", .arr [])])])),
   ("20250104_120000.json", some (.obj [("results", .obj [("pass_rate", .num (4/5)), ("details", .arr [])])])),
   ("20250105_120000.json", some (.obj [("results", .obj [("pass_rate", .num 1), ("details", .arr [])])]))]

/-! Claim theorems. -/

/-- C1, counterexample: the overlay document with overlay, info present and
actions bound to the empty sequence is assessed with passed = true and a
passing has_actions check — the claim asserts passed = false with a failing
actions check for this very input. -/
theorem c1_empty_actions_passes :
    (assessOverlay "overlay.yaml" (.parsed emptyActionsOverlay)).passed = true ∧
    ((assessOverlay "overlay.yaml" (.parsed emptyActionsOverlay)).findCheck "has_actions").map
      Check.passed = some true :=
  ⟨rfl, rfl⟩

/-- C1 (amended): for every overlay mapping that parses as YAML, if the
actions key is absent or its value is not a sequence, assess_overlay
returns passed = false and the result carries a failing has_actions check;
an empty actions sequence instead satisfies the has_actions check. -/
theorem c1_missing_actions_fails (nm : String) (entries : List (String × Yaml))
    (h : ((Yaml.obj entries).hasKey "actions" &&
          isYamlList ((Yaml.obj entries).lookup "actions")) = false) :
    (assessOverlay nm (.parsed (.obj entries))).passed = false ∧
    ∃ c ∈ (assessOverlay nm (.parsed (.obj entries))).checks,
      c.name = "has_actions" ∧ c.passed = false := by
  constructor
  · simp [assessOverlay, AssessmentResult.addCheck, h]
  · refine ⟨⟨"has_actions",
      (Yaml.obj entries).hasKey "actions" && isYamlList ((Yaml.obj entries).lookup "actions"),
      "\x27actions\x27 field " ++
        (if (Yaml.obj entries).hasKey "actions" &&
            isYamlList ((Yaml.obj entries).lookup "actions") then "present with entries"
         else "missing or empty")⟩, ?_, rfl, h⟩
    simp [assessOverlay, AssessmentResult.addCheck, h]

/-- C1, witness for the amended theorem at a concrete overlay mapping
without an actions key. -/
theorem c1_missing_actions_witness :
    (assessOverlay "overlay.yaml"
      (.parsed (.obj [("overlay", .str "1.0.0"), ("info", .obj [])]))).passed = false ∧
    ∃ c ∈ (assessOverlay "overlay.yaml"
      (.parsed (.obj [("overlay", .str "1.0.0"), ("info", .obj [])]))).checks,
      c.name = "has_actions" ∧ c.passed = false :=
  c1_missing_actions_fails "overlay.yaml" [("overlay", .str "1.0.0"), ("info", .obj [])] (by rfl)

/-- C4, counterexample: on the empty workspace, assess_generation for
typescript does not return at the workflow_exists check — it also records
the failing sdk_directory_exists check, so the result does not consist of
the single failing workflow_exists check the claim describes. -/
theorem c4_two_structural_checks_recorded :
    (assessGeneration emptyFs "typescript" none).checks.map Check.name =
      ["workflow_exists", "sdk_directory_exists"] := by
  rfl

/-- C4 (amended): on a workspace with no manifest and no SDK directory,
assess_generation("typescript") returns passed = false with exactly the two
failing structural checks workflow_exists and sdk_directory_exists, and
returns at that point: no language-specific sub-checks (package.json, src
directory, entrypoint) are evaluated or recorded, and summary is left
empty by the early return. -/
theorem c4_empty_workspace_generation :
    assessGeneration emptyFs "typescript" none =
      { passed := false,
        checks := [⟨"workflow_exists", false, ".speakeasy/workflow.yaml missing"⟩,
                   ⟨"sdk_directory_exists", false, "SDK output directory not found"⟩],
        summary := "" } := by
  rfl

/-- C5: on the cursor-pagination overlay lacking a nextCursor output,
assess_pagination_config fails overall, failing exactly the
cursor_has_next check of the block while its has_type, valid_type,
has_inputs and has_outputs checks all pass. -/
theorem c5_cursor_missing_next_fails :
    (assessPaginationConfig "overlay.yaml" (.parsed paginationCursorNoNext)).passed = false ∧
    (assessPaginationConfig "overlay.yaml" (.parsed paginationCursorNoNext)).checks.map
        (fun c => (c.name, c.passed)) =
      [("valid_yaml", true), ("has_pagination", true),
       ("action_0_pagination_has_type", true), ("action_0_pagination_valid_type", true),
       ("action_0_pagination_has_inputs", true), ("action_0_pagination_has_outputs", true),
       ("action_0_pagination_cursor_has_next", false)] :=
  ⟨rfl, rfl⟩

/-! Hook-assessment lemmas: the per-hook loop only appends check records
and never writes the overall passed flag. -/

/-- hookStep leaves passed unchanged. -/
theorem hookStep_passed (fs : Fs) (r : AssessmentResult) (hp : String × String) :
    (hookStep fs r hp).passed = r.passed := by
  simp only [hookStep, AssessmentResult.addCheck]
  split <;> rfl

/-- The hook loop leaves passed unchanged. -/
theorem hookFoldl_passed (fs : Fs) :
    ∀ (paths : List (String × String)) (r : AssessmentResult),
      (paths.foldl (hookStep fs) r).passed = r.passed
  | [], _ => rfl
  | hp :: rest, r => by
      rw [List.foldl_cons, hookFoldl_passed fs rest, hookStep_passed]

/-- hookStep only appends checks. -/
theorem hookStep_mem (fs : Fs) (r : AssessmentResult) (hp : String × String)
    {c : Check} (h : c ∈ r.checks) : c ∈ (hookStep fs r hp).checks := by
  simp only [hookStep, AssessmentResult.addCheck]
  split <;> simp <;> exact Or.inl h

/-- The hook loop only appends checks. -/
theorem hookFoldl_mem (fs : Fs) :
    ∀ (paths : List (String × String)) (r : AssessmentResult) {c : Check},
      c ∈ r.checks → c ∈ (paths.foldl (hookStep fs) r).checks
  | [], _, _, h => h
  | hp :: rest, r, _, h => by
      rw [List.foldl_cons]
      exact hookFoldl_mem fs rest _ (hookStep_mem fs r hp h)

/-- A readable file exists. -/
theorem pathExists_of_readFile (fs : Fs) (p : List String) (ctnt : String)
    (h : fs.readFile p = some ctnt) : fs.pathExists p = true := by
  unfold Fs.readFile at h
  unfold Fs.pathExists Fs.isFile
  rcases ho : fs.files.find? (fun e => e.1 == p) with _ | e
  · rw [ho] at h; simp at h
  · have hm := List.mem_of_find?_eq_some ho
    have hp := List.find?_some ho
    simp only [Bool.or_eq_true, List.any_eq_true]
    exact Or.inl ⟨e, hm, hp⟩

/-- The hook loop records a failing has_content check for every hook of the
list whose file exists with whitespace-only content. -/
theorem hookFoldl_empty_hook (fs : Fs) :
    ∀ (paths : List (String × String)) (r : AssessmentResult) (hn rel : String),
      (hn, rel) ∈ paths →
      ∀ ctnt, fs.readFile (splitPath rel) = some ctnt → pyStrip ctnt = "" →
      ∃ c ∈ (paths.foldl (hookStep fs) r).checks,
        c.name = "hook_" ++ hn ++ "_has_content" ∧ c.passed = false
  | [], _, _, _, hmem, _, _, _ => absurd hmem (List.not_mem_nil _)
  | hp :: rest, r, hn, rel, hmem, ctnt, hread, htrim => by
      rw [List.foldl_cons]
      rcases List.mem_cons.mp hmem with heq | htail
      · have hex := pathExists_of_readFile fs (splitPath rel) ctnt hread
        have hcontent : pyStrip ((fs.readFile (splitPath rel)).getD "") = "" := by
          rw [hread]; exact htrim
        have hlen : (0 < (pyStrip ((fs.readFile (splitPath rel)).getD "")).length) = False := by
          rw [hcontent]; simp
        refine ⟨⟨"hook_" ++ hn ++ "_has_content", false, rel ++ " is empty"⟩,
          hookFoldl_mem fs rest _ ?_, rfl, rfl⟩
        rw [← heq]
        simp [hookStep, AssessmentResult.addCheck, hex, hlen]
      · exact hookFoldl_empty_hook fs rest _ hn rel htail ctnt hread htrim

/-- C2, counterexample: a matches assertion whose value is the malformed
regular expression "(" makes check_assertions propagate the regex
compilation error instead of returning a record list — the claim asserts
no input ever raises. -/
theorem c2_malformed_regex_raises :
    checkAssertions reSearchModel (fun _ => true) (fun _ => true) "abc"
      [{ atype := "matches", value := "(" }] =
    .error "re.error: unbalanced parenthesis in pattern (" := by
  rfl

/-- A single assertion whose branch cannot raise evaluates to a record
list. -/
theorem checkOneAssertion_ok (reSearch : String → String → Except String Bool)
    (yamlOk jsonOk : String → Bool) (output : String) (a : Assertion)
    (h : a.atype = "matches" → ∃ b, reSearch a.value output = .ok b) :
    ∃ recs, checkOneAssertion reSearch yamlOk jsonOk output a = .ok recs := by
  unfold checkOneAssertion
  simp only [ite_self]
  split_ifs with h1 h2 h3 h4 h5 h6 h7 <;> try exact ⟨_, rfl⟩
  obtain ⟨b, hb⟩ := h (beq_iff_eq.mp h3)
  rw [hb]
  exact ⟨_, rfl⟩

/-- C2 (amended): check_assertions returns a well-formed record list — and
in particular does not raise — for every input whose matches assertions
all carry patterns the regex engine accepts; a malformed matches pattern
instead propagates the regex-compilation exception (see the
counterexample). -/
theorem c2_checkAssertions_ok (reSearch : String → String → Except String Bool)
    (yamlOk jsonOk : String → Bool) (output : String) :
    ∀ (assertions : List Assertion),
      (∀ a ∈ assertions, a.atype = "matches" → ∃ b, reSearch a.value output = .ok b) →
      ∃ l, checkAssertions reSearch yamlOk jsonOk output assertions = .ok l
  | [], _ => ⟨[], rfl⟩
  | a :: rest, h => by
      obtain ⟨recs, hr⟩ :=
        checkOneAssertion_ok reSearch yamlOk jsonOk output a (h a (List.mem_cons_self a rest))
      obtain ⟨l, hl⟩ :=
        c2_checkAssertions_ok reSearch yamlOk jsonOk output rest
          (fun x hx => h x (List.mem_cons_of_mem a hx))
      refine ⟨recs ++ l, ?_⟩
      simp only [checkAssertions, hr, hl]
      rfl

/-- C2, witness: the amended theorem at a concrete two-assertion list with
a well-formed matches pattern. -/
theorem c2_checkAssertions_ok_witness :
    ∃ l, checkAssertions reSearchModel (fun _ => true) (fun _ => true) "abc"
      [{ atype := "contains", value := "a" }, { atype := "matches", value := "b" }] = .ok l :=
  c2_checkAssertions_ok reSearchModel (fun _ => true) (fun _ => true) "abc"
    [{ atype := "contains", value := "a" }, { atype := "matches", value := "b" }]
    (by
      intro a ha hm
      rcases List.mem_cons.mp ha with h | h2
      · subst h; exact absurd hm (by decide)
      · rcases List.mem_cons.mp h2 with h | h3
        · subst h; exact ⟨substrB "b" "abc", rfl⟩
        · exact absurd h3 (List.not_mem_nil _))

/-- C3, counterexample: the workspace holding an existing but empty Python
hook file is assessed with passed = true (the failing has_content check is
recorded but never fails the assessment) — the claim asserts passed =
false for this input. -/
theorem c3_empty_hook_passes :
    (assessHooksPreserved emptyHookFs "python").passed = true ∧
    ((assessHooksPreserved emptyHookFs "python").findCheck
        "hook_registration_has_content").map Check.passed = some false :=
  ⟨rfl, rfl⟩

/-- C3 (amended): assess_hooks_preserved never fails: for every workspace
and target the returned passed is true; a hook file that exists with
whitespace-only content yields a failing hook_<name>_has_content check
record (while absence alone yields no content check at all), but neither
makes passed false. -/
theorem c3_hooks_preserved (fs : Fs) (target : String) :
    (assessHooksPreserved fs target).passed = true ∧
    (∀ hn rel, (hn, rel) ∈ (hookPathsTable.lookup (pyLower target)).getD [] →
      ∀ ctnt, fs.readFile (splitPath rel) = some ctnt → pyStrip ctnt = "" →
      ∃ c ∈ (assessHooksPreserved fs target).checks,
        c.name = "hook_" ++ hn ++ "_has_content" ∧ c.passed = false) := by
  simp only [assessHooksPreserved, AssessmentResult.addCheck]
  split_ifs with hempty
  · refine ⟨rfl, fun hn rel hmem _ _ _ => ?_⟩
    rw [List.isEmpty_iff.mp hempty] at hmem
    exact absurd hmem (List.not_mem_nil _)
  · exact ⟨hookFoldl_passed fs _ _,
      fun hn rel hmem ctnt hread htrim =>
        hookFoldl_empty_hook fs _ _ hn rel hmem ctnt hread htrim⟩

/-- C3, witness for the amended theorem at the empty-hook workspace. -/
theorem c3_hooks_preserved_witness :
    (assessHooksPreserved emptyHookFs "python").passed = true ∧
    ∃ c ∈ (assessHooksPreserved emptyHookFs "python").checks,
      c.name = "hook_" ++ "registration" ++ "_has_content" ∧ c.passed = false :=
  ⟨(c3_hooks_preserved emptyHookFs "python").1,
   (c3_hooks_preserved emptyHookFs "python").2 "registration" "src/hooks/registration.py"
     (by decide)
     "" (by rfl) (by rfl)⟩

/-! SDK-compilation lemmas for the absent-toolchain oracle. -/

/-- Under an oracle reporting every executable absent, the quick-mode step
loop records one passing, skipped-annotated check per step. -/
theorem runBuildSteps_quick_notFound (msg : String) :
    ∀ (steps : List BuildStep) (r : AssessmentResult),
      runBuildSteps (fun _ _ => .notFound msg) "quick" steps r =
        steps.foldl (fun acc st =>
          acc.addCheck ("build_" ++ st.1) true
            ("skipped (command not found: " ++ st.2.1.headD "" ++ ")")) r
  | [], _ => rfl
  | st :: rest, r => by
      rw [List.foldl_cons, show runBuildSteps (fun _ _ => .notFound msg) "quick" (st :: rest) r =
        runBuildSteps (fun _ _ => .notFound msg) "quick" rest
          (r.addCheck ("build_" ++ st.1) true
            ("skipped (command not found: " ++ st.2.1.headD "" ++ ")")) from rfl]
      exact runBuildSteps_quick_notFound msg rest _

/-- The skipped-check fold leaves passed unchanged. -/
theorem skipFoldl_passed :
    ∀ (steps : List BuildStep) (r : AssessmentResult),
      (steps.foldl (fun acc st =>
        acc.addCheck ("build_" ++ st.1) true
          ("skipped (command not found: " ++ st.2.1.headD "" ++ ")")) r).passed = r.passed
  | [], _ => rfl
  | _ :: rest, r => by
      rw [List.foldl_cons]
      exact skipFoldl_passed rest _

/-- Every check of the skipped-check fold is an inherited check or a
passing check annotated as skipped. -/
theorem skipFoldl_mem :
    ∀ (steps : List BuildStep) (r : AssessmentResult) (c : Check),
      c ∈ (steps.foldl (fun acc st =>
          acc.addCheck ("build_" ++ st.1) true
            ("skipped (command not found: " ++ st.2.1.headD "" ++ ")")) r).checks →
      c ∈ r.checks ∨ (c.passed = true ∧ ∃ x, c.details = "skipped (command not found: " ++ x ++ ")")
  | [], _, _, h => Or.inl h
  | st :: rest, r, c, h => by
      rw [List.foldl_cons] at h
      rcases skipFoldl_mem rest _ c h with h1 | h2
      · simp only [AssessmentResult.addCheck, List.mem_append, List.mem_singleton] at h1
        rcases h1 with h1 | h1
        · exact Or.inl h1
        · exact Or.inr (by rw [h1]; exact ⟨rfl, st.2.1.headD "", rfl⟩)
      · exact Or.inr h2

/-- The skipped-check fold only appends checks. -/
theorem skipFoldl_mono :
    ∀ (steps : List BuildStep) (r : AssessmentResult) {c : Check},
      c ∈ r.checks →
      c ∈ (steps.foldl (fun acc st =>
          acc.addCheck ("build_" ++ st.1) true
            ("skipped (command not found: " ++ st.2.1.headD "" ++ ")")) r).checks
  | [], _, _, h => h
  | st :: rest, r, c, h => by
      rw [List.foldl_cons]
      exact skipFoldl_mono rest _ (by simp [AssessmentResult.addCheck]; exact Or.inl h)

/-- The skipped-check fold over a nonempty step list records at least one
skipped-annotated check. -/
theorem skipFoldl_exists (st : BuildStep) (rest : List BuildStep) (r : AssessmentResult) :
    ∃ c ∈ ((st :: rest).foldl (fun acc s =>
        acc.addCheck ("build_" ++ s.1) true
          ("skipped (command not found: " ++ s.2.1.headD "" ++ ")")) r).checks,
      ∃ x, c.details = "skipped (command not found: " ++ x ++ ")" := by
  rw [List.foldl_cons]
  exact ⟨⟨"build_" ++ st.1, true, "skipped (command not found: " ++ st.2.1.headD "" ++ ")"⟩,
    skipFoldl_mono rest _ (by simp [AssessmentResult.addCheck]), st.2.1.headD "", rfl⟩

/-- Under the same oracle in full mode, the first step already records a
failing command-not-found check and fails the result. -/
theorem runBuildSteps_full_notFound (msg : String) (st : BuildStep) (rest : List BuildStep)
    (r : AssessmentResult) :
    runBuildSteps (fun _ _ => .notFound msg) "full" (st :: rest) r =
      { r.addCheck ("build_" ++ st.1) false ("command not found: " ++ msg) with
        passed := false } := by
  rfl

/-- C6: for every target with both quick and full command tables, under an
oracle in which running any build step raises executable-not-found, quick
mode returns passed = true with every check passing and each build step
annotated as skipped, while full mode returns passed = false with a failing
check recorded. -/
theorem c6_absent_toolchain (target msg : String)
    (hq : (quickCommands.lookup target).getD [] ≠ [])
    (hf : (fullCommands.lookup target).getD [] ≠ []) :
    ((assessSdkCompilation (fun _ _ => .notFound msg) target "quick").passed = true ∧
     (∀ c ∈ (assessSdkCompilation (fun _ _ => .notFound msg) target "quick").checks,
        c.passed = true) ∧
     (∃ c ∈ (assessSdkCompilation (fun _ _ => .notFound msg) target "quick").checks,
        ∃ x, c.details = "skipped (command not found: " ++ x ++ ")")) ∧
    ((assessSdkCompilation (fun _ _ => .notFound msg) target "full").passed = false ∧
     ∃ c ∈ (assessSdkCompilation (fun _ _ => .notFound msg) target "full").checks,
        c.passed = false) := by
  have hqe : ((quickCommands.lookup target).getD []).isEmpty = false :=
    by simpa [List.isEmpty_iff] using hq
  have hfe : ((fullCommands.lookup target).getD []).isEmpty = false :=
    by simpa [List.isEmpty_iff] using hf
  have hmq : (("quick" : String) == "quick") = true := by decide
  have hmf : (("full" : String) == "quick") = false := by decide
  constructor
  · simp only [assessSdkCompilation, hmq, eq_self_iff_true, if_true, hqe,
      Bool.false_eq_true, if_false, runBuildSteps_quick_notFound]
    refine ⟨?_, ?_, ?_⟩
    · rw [skipFoldl_passed]; rfl
    · intro c hc
      rcases skipFoldl_mem _ _ c hc with h1 | h2
      · simp only [AssessmentResult.addCheck, List.nil_append, List.mem_singleton] at h1
        rw [h1]
      · exact h2.1
    · obtain ⟨st, rest, hconsq⟩ := List.exists_cons_of_ne_nil hq
      rw [hconsq]
      exact skipFoldl_exists st rest _
  · simp only [assessSdkCompilation, hmf, Bool.false_eq_true, if_false, hfe]
    obtain ⟨st, rest, hconsf⟩ := List.exists_cons_of_ne_nil hf
    rw [hconsf, runBuildSteps_full_notFound]
    refine ⟨rfl, ⟨"build_" ++ st.1, false, "command not found: " ++ msg⟩, ?_, rfl⟩
    simp [AssessmentResult.addCheck]

/-- C6, witness at target typescript. -/
theorem c6_absent_toolchain_witness :
    ((quickCommands.lookup "typescript").getD [] ≠ [] ∧
     (fullCommands.lookup "typescript").getD [] ≠ []) ∧
    ((assessSdkCompilation (fun _ _ => .notFound "npm") "typescript" "quick").passed = true ∧
     (assessSdkCompilation (fun _ _ => .notFound "npm") "typescript" "full").passed = false) :=
  ⟨⟨by decide, by decide⟩,
   (c6_absent_toolchain "typescript" "npm" (by decide) (by decide)).1.1,
   (c6_absent_toolchain "typescript" "npm" (by decide) (by decide)).2.1⟩

/-- C7: assess_lint_output fails exactly when the case-insensitive
whole-word error count is positive; warnings and the known problem patterns
never by themselves fail the result. -/
theorem c7_lint_passed_iff (t : String) :
    (assessLintOutput t).passed = false ↔ 0 < countWordCI "error" t := by
  simp only [assessLintOutput, AssessmentResult.addCheck, List.foldl_cons, List.foldl_nil]
  split_ifs with h
  · simpa using h
  · simpa using h

/-- C7, witness at a concrete lint transcript holding one error word. -/
theorem c7_lint_witness :
    (assessLintOutput "1 error, 2 warnings").passed = false ↔
      0 < countWordCI "error" "1 error, 2 warnings" :=
  c7_lint_passed_iff "1 error, 2 warnings"

/-! Tracker, workspace-diff and runner theorems. -/

/-- C8: over the synthetic five-record history the trend summary reports a
latest pass rate of 1, a window mean of 3/5 and the most-recent-first
trend sequence; over an empty results directory it returns the explicit
no-data value for every window size, never a division. -/
theorem c8_trend_summary :
    getTrendSummary trendFiles 5 =
      .ok 5 { latest := 1, avg := 3/5, trend := [1, 4/5, 3/5, 2/5, 1/5] }
        { latest := 0, avg := 0, trend := [0, 0, 0, 0, 0] }
        { latest := 0, avg := 0, trend := [0, 0, 0, 0, 0] }
        { latest := 0, avg := 0, trend := [] } ∧
    ∀ n, getTrendSummary [] n = .err "No results found" := by
  constructor
  · have h1 : getTrendSummary trendFiles 5 =
        .ok 5 (mkMetric [1, 4/5, 3/5, 2/5, 1/5]) (mkMetric [0, 0, 0, 0, 0])
          (mkMetric [0, 0, 0, 0, 0]) (mkMetric []) := rfl
    rw [h1]
    simp only [mkMetric, TrendSummary.ok.injEq, Metric.mk.injEq, List.headD_cons,
      List.isEmpty_cons, List.isEmpty_nil, List.sum_cons, List.sum_nil, List.length_cons,
      List.length_nil, Bool.false_eq_true, if_false, if_true]
    norm_num
  · intro n
    simp [getTrendSummary, getRecentResults, sortNameDesc, List.take_nil]

/-- Self-diff of a key list: no key is added. -/
theorem filter_not_contains_self (l : List (List String)) :
    l.filter (fun k => !l.contains k) = [] :=
  List.filter_eq_nil_iff.mpr (fun a ha => by simpa using ha)

/-- Self-diff of a snapshot: no key is modified. -/
theorem filter_modified_self (snap : List (List String × String)) :
    (snap.map (fun e => e.1)).filter (fun k =>
      (snap.map (fun e => e.1)).contains k && !(snap.lookup k == snap.lookup k)) = [] :=
  List.filter_eq_nil_iff.mpr (fun a _ => by simp)

/-- C9: get_changes immediately after setup, with no mutation in between,
reports empty added, removed and modified sets, for every starting
workspace, fixture content and hash function. -/
theorem c9_no_changes_after_setup (hash : String → String) (ws : Ws) (specContent : String)
    (genYaml : Option String) (overlays : List (String × String)) :
    ∃ u, getChanges hash (setup hash ws specContent genYaml overlays) =
      .ok { added := [], removed := [], modified := [], unchanged := u } := by
  simp only [setup, getChanges, filter_not_contains_self, filter_modified_self,
    show sortPathsAsc [] = [] from rfl]
  exact ⟨_, rfl⟩

/-- C9, witness at a concrete workspace and fixture. -/
theorem c9_no_changes_witness :
    ∃ u, getChanges (fun s => s) (setup (fun s => s) {} "openapi: 3.0.0" none []) =
      .ok { added := [], removed := [], modified := [], unchanged := u } :=
  c9_no_changes_after_setup (fun s => s) {} "openapi: 3.0.0" none []

/-- Option.isSome through isNone. -/
theorem isSome_eq_not_isNone {α : Type} (o : Option α) : o.isSome = !o.isNone := by
  cases o <;> rfl

/-- C10: the runner computes pass_rate = passed / total with total counting
skipped tests, so a suite holding at least one fixture-failed (skipped)
test has pass_rate strictly below 1 whatever the evaluation oracle returns
for the attempted tests; an empty suite yields pass_rate 0 rather than a
division error. -/
theorem c10_pass_rate (evalFn : TestRec → RunDetail) (suite : String) (tests : List TestRec) :
    ((∃ t ∈ tests, t.error.isSome = true) →
      (runEval evalFn suite tests none none).pass_rate < 1) ∧
    (tests = [] → (runEval evalFn suite tests none none).pass_rate = 0) := by
  constructor
  · rintro ⟨t, ht, he⟩
    have hskip : 0 < (tests.filter (fun t => t.error.isSome)).length :=
      List.length_pos_of_mem (List.mem_filter.mpr ⟨ht, he⟩)
    have hpart : tests.length = (tests.filter (fun t => t.error.isNone)).length +
        (tests.filter (fun t => t.error.isSome)).length := by
      have h0 := List.length_eq_length_filter_add (l := tests) (fun t => t.error.isNone)
      have h1 : tests.filter (fun t => !t.error.isNone) =
          tests.filter (fun t => t.error.isSome) :=
        List.filter_congr (fun x _ => (isSome_eq_not_isNone x.error).symm)
      rw [h1] at h0
      exact h0
    have hpassed : (((tests.filter (fun t => t.error.isNone)).map
        (fun t => { evalFn t with name := t.name })).filter (fun d => d.passed)).length ≤
        (tests.filter (fun t => t.error.isNone)).length := by
      calc _ ≤ ((tests.filter (fun t => t.error.isNone)).map
            (fun t => { evalFn t with name := t.name })).length := List.length_filter_le _ _
        _ = _ := List.length_map _ _
    have hpos : 0 < tests.length := by omega
    have hlt : (((tests.filter (fun t => t.error.isNone)).map
        (fun t => { evalFn t with name := t.name })).filter (fun d => d.passed)).length <
        tests.length := by omega
    simp only [runEval]
    rw [if_pos hpos, div_lt_one (by exact_mod_cast hpos)]
    exact_mod_cast hlt
  · rintro rfl
    rfl

/-- C10, witness: a one-test suite whose only test failed fixture
resolution has pass_rate below 1. -/
theorem c10_pass_rate_witness :
    (∃ t ∈ [({ name := "a", error := some "missing spec" } : TestRec)],
      t.error.isSome = true) ∧
    (runEval (fun t => { name := t.name, passed := true }) "overlay"
      [{ name := "a", error := some "missing spec" }] none none).pass_rate < 1 :=
  ⟨⟨_, List.mem_cons_self _ _, rfl⟩,
   (c10_pass_rate (fun t => { name := t.name, passed := true }) "overlay"
     [{ name := "a", error := some "missing spec" }]).1
     ⟨_, List.mem_cons_self _ _, rfl⟩⟩

end SkillEval
